import Mathlib

/-!
Verification of the DexNet grasp-quality metric computation engine
(src/dexnet/api.py): a shallow embedding of the data model and of the
metric-computation pass, together with theorems checking the specified
behaviour of variant expansion, gravity wrench derivation, stable pose
subsampling, the feasibility gate and the orchestration loop.

Numeric values are embedded over an arbitrary linear ordered field K
(instantiated at ℚ for executable witnesses and at ℝ where the angle
conversion to radians involves pi).
-/

namespace DexNetSpec

variable {K : Type} [LinearOrderedField K]

/-- A candidate grasp.  The approach transform lives in the external
grasping module; here the grasp is identified by its id and its geometric
operations are supplied by the collaborator bundle GraspOps. -/
structure Grasp where
  id : Nat
deriving DecidableEq

/-- A stable pose of an object: identifier, 3x3 orientation matrix r
(row 2 is the table-contact normal in the object frame) and probability p. -/
structure StablePose (K : Type) where
  id : String
  r : Fin 3 → Fin 3 → K
  p : K
deriving DecidableEq

instance : Inhabited (StablePose K) := ⟨⟨"", fun _ _ => 0, 0⟩⟩

/-- A graspable object: identity key and mass. -/
structure GraspableObject (K : Type) where
  key : String
  mass : K

/-- A grasp-quality metric configuration, as produced by the external
GraspQualityConfigFactory.create_config.  The fields target_wrench,
force_limits, finger_radius, inner_radius and height start out unset and
are attached by setattr at expansion or gripper-merge time; they are
modelled as Option fields. -/
structure GQConfig (K : Type) where
  quality_method : String
  max_approach_table_angle : K
  target_wrench : Option (Fin 6 → K) := none
  force_limits : Option K := none
  finger_radius : Option K := none
  inner_radius : Option K := none
  height : Option K := none

/-- A robot gripper record loaded by the external gripper module.
inner_radius and height are optional attributes (hasattr checks). -/
structure Gripper (K : Type) where
  name : String
  type : String
  force_limit : K
  finger_radius : K
  inner_radius : Option K := none
  height : Option K := none

/-- Modelled from the spec: GRAVITY_ACCEL comes from dexnet.constants,
which is not under src/; the spec fixes g = 9.81. -/
def GRAVITY_ACCEL (K : Type) [LinearOrderedField K] : K := 981 / 100

/-- Shallow embedding of DexNet._gravity_wrench (src/dexnet/api.py
lines 480-487): gravity_magnitude = mass * GRAVITY_ACCEL, the table
normal is row 2 of the pose rotation, gravity_force = -magnitude * normal,
and the returned resisting wrench is -append(gravity_force, [0,0,0]). -/
def gravity_wrench (obj : GraspableObject K) (stable_pose : StablePose K) : Fin 6 → K :=
  let gravity_magnitude := obj.mass * GRAVITY_ACCEL K
  let stable_pose_normal := stable_pose.r 2
  let gravity_force : Fin 3 → K := fun j => -gravity_magnitude * stable_pose_normal j
  fun i => -(Fin.append gravity_force (fun _ : Fin 3 => 0) i)

/-- The disjunction tested at src/dexnet/api.py lines 526-528 and 573-575:
whether a quality method depends on gravity. -/
def isGravityMethod (qm : String) : Bool :=
  qm == "partial_closure" || qm == "wrench_resistance" || qm == "suction_wrench_resistance"

/-- Shallow embedding of the metric-variant expansion block of
DexNet._compute_metrics (src/dexnet/api.py lines 521-538): for
gravity-dependent quality methods, one variant per stable pose, each a
copy of the configuration with its target_wrench set to the gravity
wrench and named metric_name ++ "_" ++ pose id; otherwise the single
original (name, configuration) pair. -/
def expand_variants (obj : GraspableObject K) (metric_name : String)
    (metric_config : GQConfig K) (stable_poses : List (StablePose K)) :
    List (String × GQConfig K) :=
  if isGravityMethod metric_config.quality_method then
    stable_poses.map (fun stable_pose =>
      (metric_name ++ "_" ++ stable_pose.id,
       { metric_config with target_wrench := some (gravity_wrench obj stable_pose) }))
  else
    [(metric_name, metric_config)]

/-- Concrete object used in counterexamples and witnesses: mass 1. -/
def cObj : GraspableObject ℚ := { key := "obj", mass := 1 }

/-- Concrete stable pose with identity orientation, so the table-contact
normal (row 2) is (0, 0, 1). -/
def cPose : StablePose ℚ := { id := "pose1", r := fun i j => if i = j then 1 else 0, p := 1 }

/-- C1: for a gravity-dependent quality method and k retained stable poses,
expansion produces exactly k variants, the i-th named metric_pose.id for
the i-th pose with target_wrench set to the gravity resisting wrench of
that pose; for any other quality method it produces exactly one variant
with the original name and unmodified configuration. -/
theorem expand_variants_spec (obj : GraspableObject K) (metric_name : String)
    (metric_config : GQConfig K) (stable_poses : List (StablePose K)) :
    (isGravityMethod metric_config.quality_method = true →
      (expand_variants obj metric_name metric_config stable_poses).length
          = stable_poses.length ∧
      ∀ i (h : i < stable_poses.length),
        (expand_variants obj metric_name metric_config stable_poses)[i]? =
          some (metric_name ++ "_" ++ stable_poses[i].id,
            { metric_config with
                target_wrench := some (gravity_wrench obj stable_poses[i]) })) ∧
    (isGravityMethod metric_config.quality_method = false →
      expand_variants obj metric_name metric_config stable_poses
        = [(metric_name, metric_config)]) := by
  constructor
  · intro hg
    constructor
    · simp [expand_variants, hg]
    · intro i h
      simp [expand_variants, hg, List.getElem?_map, List.getElem?_eq_getElem h]
  · intro hg
    simp [expand_variants, hg]

/-- Concrete gravity-dependent metric configuration for witnesses. -/
def cCfgGravity : GQConfig ℚ :=
  { quality_method := "wrench_resistance", max_approach_table_angle := 10 }

/-- Concrete non-gravity metric configuration for witnesses. -/
def cCfgPlain : GQConfig ℚ :=
  { quality_method := "force_closure", max_approach_table_angle := 10 }

/-- Witness for C1: a concrete gravity-method expansion over two poses and
a concrete non-gravity expansion. -/
theorem expand_variants_spec_witness :
    (expand_variants cObj "m" cCfgGravity [cPose, cPose]).length = 2 ∧
    expand_variants cObj "m" cCfgPlain [cPose, cPose] = [("m", cCfgPlain)] :=
  ⟨((expand_variants_spec cObj "m" cCfgGravity [cPose, cPose]).1 (by decide)).1,
   (expand_variants_spec cObj "m" cCfgPlain [cPose, cPose]).2 (by decide)⟩

/-- C4 counterexample: at mass 1.0, g = 9.81 and table-contact normal
(0,0,1), the force z component of the wrench returned by the code is
+9.81, not -9.81 as the claim states. -/
theorem gravity_wrench_sign_counterexample :
    gravity_wrench cObj cPose (Fin.castAdd 3 2) = 981 / 100 ∧
    gravity_wrench cObj cPose (Fin.castAdd 3 2) ≠ -(981 / 100) := by
  constructor
  · simp [gravity_wrench, cObj, cPose, GRAVITY_ACCEL, Fin.append_left]
  · simp [gravity_wrench, cObj, cPose, GRAVITY_ACCEL, Fin.append_left]
    norm_num

/-- C4 (amended): with mass 1.0, g = 9.81 and table-contact normal (0,0,1)
the returned force component is (0, 0, +9.81), and identical inputs always
yield identical output. -/
theorem gravity_wrench_z_up (obj : GraspableObject ℚ) (sp : StablePose ℚ)
    (hm : obj.mass = 1) (hn : sp.r 2 = ![0, 0, 1]) :
    (∀ j : Fin 3, gravity_wrench obj sp (Fin.castAdd 3 j) = ![0, 0, (981 : ℚ) / 100] j) ∧
    (∀ obj2 sp2, obj2 = obj → sp2 = sp →
      gravity_wrench obj2 sp2 = gravity_wrench obj sp) := by
  constructor
  · intro j
    simp [gravity_wrench, hm, hn, GRAVITY_ACCEL, Fin.append_left]
    fin_cases j <;> simp
  · intro obj2 sp2 h1 h2
    rw [h1, h2]

/-- Witness for C4 (amended): the z force component at the concrete
mass-1 object and identity pose is 9.81. -/
theorem gravity_wrench_z_up_witness :
    gravity_wrench cObj cPose (Fin.castAdd 3 2) = ![0, 0, (981 : ℚ) / 100] 2 :=
  (gravity_wrench_z_up cObj cPose (by decide)
    (by funext j; fin_cases j <;> decide)).1 2

/-- C5: for every object and stable pose with table-contact normal n
(row 2 of the pose rotation), the gravity wrench derivation returns force
component mass * g * n and zero torque, and identical inputs always give
identical outputs (the function is pure and total). -/
theorem gravity_wrench_spec (obj : GraspableObject K) (sp : StablePose K)
    (hm : 0 ≤ obj.mass) :
    (∀ j : Fin 3, gravity_wrench obj sp (Fin.castAdd 3 j)
        = obj.mass * GRAVITY_ACCEL K * sp.r 2 j) ∧
    (∀ j : Fin 3, gravity_wrench obj sp (Fin.natAdd 3 j) = 0) ∧
    (∀ obj2 sp2, obj2 = obj → sp2 = sp →
      gravity_wrench obj2 sp2 = gravity_wrench obj sp) := by
  refine ⟨fun j => ?_, fun j => ?_, fun obj2 sp2 h1 h2 => by rw [h1, h2]⟩
  · simp only [gravity_wrench, Fin.append_left]
    ring
  · simp only [gravity_wrench, Fin.append_right, neg_zero]

/-- Witness for C5 at the concrete mass-1 object and identity pose. -/
theorem gravity_wrench_spec_witness :
    gravity_wrench cObj cPose (Fin.castAdd 3 2)
      = cObj.mass * GRAVITY_ACCEL ℚ * cPose.r 2 2 :=
  (gravity_wrench_spec cObj cPose (by decide)).1 2

/-- Renormalization of the stable-pose probabilities at src/dexnet/api.py
line 502: p = p / np.sum(p).  Over a field, division by a zero total yields
zero weights (numpy would yield NaN). -/
def normalizeWeights (ps : List K) : List K := ps.map (fun q => q / ps.sum)

/-- Inverse-CDF index selection: the first index at which the running sum of
the weights exceeds the threshold t, if any. -/
def pickIndex : List K → K → Option Nat
  | [], _ => none
  | w :: ws, t => if t < w then some 0 else (pickIndex ws (t - w)).map (· + 1)

/-- Modelled from the spec: np.random.choice(stable_poses, size, replace=False,
p=p) at src/dexnet/api.py line 503 (numpy is an external collaborator, not part
of this repository).  A weighted draw without replacement: each step consumes
one uniform sample u from the stream us, picks the inverse-CDF index for
threshold u times the sum of the remaining weights, removes the chosen element
from both lists and recurses.  When no index qualifies (for instance when all
remaining weights are 0) the draw stops short, the situation in which numpy
raises. -/
def weightedDraw {α : Type} : Nat → List K → List α → List K → List α
  | 0, _, _, _ => []
  | _ + 1, [], _, _ => []
  | n + 1, u :: us, items, ws =>
    match pickIndex ws (u * ws.sum) with
    | none => []
    | some i =>
      match items[i]? with
      | none => []
      | some x => x :: weightedDraw n us (items.eraseIdx i) (ws.eraseIdx i)

/-- Shallow embedding of the stable-pose subsampling block of
DexNet._compute_metrics (src/dexnet/api.py lines 500-503): when more poses
than max_stable_poses are present, renormalize the probabilities and draw
max_stable_poses poses without replacement; otherwise the list is unchanged. -/
def subsample_stable_poses (max_stable_poses : Nat) (us : List K)
    (stable_poses : List (StablePose K)) : List (StablePose K) :=
  if stable_poses.length > max_stable_poses then
    weightedDraw max_stable_poses us stable_poses
      (normalizeWeights (stable_poses.map (fun s => s.p)))
  else stable_poses

theorem sum_map_div (ps : List K) (c : K) :
    (ps.map (fun q => q / c)).sum = ps.sum / c := by
  induction ps with
  | nil => simp
  | cons q ps ih => simp [ih, add_div]

theorem weightedDraw_length_le {α : Type} (n : Nat) (us : List K)
    (items : List α) (ws : List K) :
    (weightedDraw n us items ws).length ≤ n := by
  induction n generalizing us items ws with
  | zero => simp [weightedDraw]
  | succ n ih =>
    cases us with
    | nil => simp [weightedDraw]
    | cons u us =>
      simp only [weightedDraw]
      cases hpk : pickIndex ws (u * ws.sum) with
      | none => simp
      | some i =>
        cases hit : items[i]? with
        | none => simp [hit]
        | some x =>
          simp only [hit]
          simpa using ih us (items.eraseIdx i) (ws.eraseIdx i)

theorem weightedDraw_subset {α : Type} (n : Nat) (us : List K)
    (items : List α) (ws : List K) :
    ∀ x ∈ weightedDraw n us items ws, x ∈ items := by
  induction n generalizing us items ws with
  | zero => simp [weightedDraw]
  | succ n ih =>
    cases us with
    | nil => simp [weightedDraw]
    | cons u us =>
      simp only [weightedDraw]
      cases hpk : pickIndex ws (u * ws.sum) with
      | none => simp
      | some i =>
        cases hit : items[i]? with
        | none => simp [hit]
        | some x =>
          simp only [hit]
          intro y hy
          rcases List.mem_cons.mp hy with h | h
          · exact h ▸ List.getElem?_mem hit
          · exact List.mem_of_mem_eraseIdx (ih us _ _ y h)

theorem not_mem_eraseIdx_of_nodup {α : Type} {items : List α} {i : Nat} {x : α}
    (hnd : items.Nodup) (hit : items[i]? = some x) : x ∉ items.eraseIdx i := by
  intro hmem
  have hi : i < items.length := by
    by_contra hge
    rw [List.getElem?_eq_none (Nat.le_of_not_lt hge)] at hit
    exact Option.noConfusion hit
  rw [List.getElem?_eq_getElem hi] at hit
  have hx : items[i] = x := Option.some.inj hit
  rcases List.mem_eraseIdx_iff_getElem.mp hmem with ⟨j, hj, hne, hget⟩
  exact hne (hnd.getElem_inj_iff.mp (hget.trans hx.symm))

theorem weightedDraw_nodup {α : Type} (n : Nat) (us : List K)
    (items : List α) (ws : List K) (hnd : items.Nodup) :
    (weightedDraw n us items ws).Nodup := by
  induction n generalizing us items ws with
  | zero => simp [weightedDraw]
  | succ n ih =>
    cases us with
    | nil => simp [weightedDraw]
    | cons u us =>
      simp only [weightedDraw]
      cases hpk : pickIndex ws (u * ws.sum) with
      | none => simp
      | some i =>
        cases hit : items[i]? with
        | none => simp [hit]
        | some x =>
          simp only [hit]
          refine List.nodup_cons.mpr ⟨fun hx => ?_, ih us _ _ (hnd.eraseIdx i)⟩
          exact not_mem_eraseIdx_of_nodup hnd hit
            (weightedDraw_subset n us _ _ x hx)

theorem pickIndex_isSome_of_lt_sum (ws : List K) (t : K)
    (h0 : 0 ≤ t) (hlt : t < ws.sum) :
    ∃ i, pickIndex ws t = some i ∧ i < ws.length := by
  induction ws generalizing t with
  | nil => simp at hlt; exact absurd hlt (not_lt.mpr h0)
  | cons w ws ih =>
    by_cases hw : t < w
    · exact ⟨0, by simp [pickIndex, hw], by simp⟩
    · have hle : w ≤ t := not_lt.mp hw
      have h0' : 0 ≤ t - w := sub_nonneg.mpr hle
      have hlt' : t - w < ws.sum := by
        have := List.sum_cons (a := w) (l := ws) ▸ hlt
        linarith
      rcases ih (t - w) h0' hlt' with ⟨i, hpk, hi⟩
      exact ⟨i + 1, by simp [pickIndex, hw, hpk], by simpa using Nat.succ_lt_succ hi⟩

theorem weightedDraw_length_eq {α : Type} (n : Nat) (us : List K)
    (items : List α) (ws : List K)
    (hlen : ws.length = items.length) (hn : n ≤ items.length)
    (hpos : ∀ w ∈ ws, 0 < w) (hus : ∀ u ∈ us, 0 ≤ u ∧ u < 1)
    (huslen : n ≤ us.length) :
    (weightedDraw n us items ws).length = n := by
  induction n generalizing us items ws with
  | zero => simp [weightedDraw]
  | succ n ih =>
    cases us with
    | nil => simp at huslen
    | cons u us =>
      have hwsne : ws ≠ [] := by
        intro h
        rw [h] at hlen
        simp at hlen
        omega
      have hsum : 0 < ws.sum := List.sum_pos ws hpos hwsne
      have hu : 0 ≤ u ∧ u < 1 := hus u (List.mem_cons_self u us)
      have h0 : 0 ≤ u * ws.sum := mul_nonneg hu.1 (le_of_lt hsum)
      have hlt : u * ws.sum < ws.sum := by
        have := mul_lt_mul_of_pos_right hu.2 hsum
        simpa using this
      rcases pickIndex_isSome_of_lt_sum ws (u * ws.sum) h0 hlt with ⟨i, hpk, hi⟩
      have hii : i < items.length := hlen ▸ hi
      have hit : items[i]? = some items[i] := List.getElem?_eq_getElem hii
      simp only [weightedDraw, hpk, hit]
      have hrec := ih us (items.eraseIdx i) (ws.eraseIdx i)
        (by rw [List.length_eraseIdx_of_lt hi, List.length_eraseIdx_of_lt hii, hlen])
        (by rw [List.length_eraseIdx_of_lt hii]; omega)
        (fun w hw => hpos w (List.mem_of_mem_eraseIdx hw))
        (fun v hv => hus v (List.mem_cons_of_mem u hv))
        (by simpa using Nat.le_of_succ_le_succ huslen)
      simp [hrec]

/-- C3: the stable-pose sampler returns exactly the input list when it has at
most max_stable_poses elements; it never returns more than max_stable_poses
poses and never a pose outside the input; and when the input is longer than
the maximum, has distinct poses with positive probabilities, and the uniform
stream is long enough and in [0,1), it returns exactly max_stable_poses
distinct poses. -/
theorem subsample_stable_poses_spec (maxN : Nat) (us : List K)
    (poses : List (StablePose K)) :
    (poses.length ≤ maxN → subsample_stable_poses maxN us poses = poses) ∧
    (∀ x ∈ subsample_stable_poses maxN us poses, x ∈ poses) ∧
    (subsample_stable_poses maxN us poses).length ≤ max maxN poses.length ∧
    (poses.length > maxN → (subsample_stable_poses maxN us poses).length ≤ maxN) ∧
    (poses.length > maxN → poses.Nodup → (∀ s ∈ poses, 0 < s.p) →
      (∀ u ∈ us, 0 ≤ u ∧ u < 1) → maxN ≤ us.length →
      (subsample_stable_poses maxN us poses).length = maxN ∧
      (subsample_stable_poses maxN us poses).Nodup) := by
  refine ⟨fun hle => ?_, fun x hx => ?_, ?_, fun hgt => ?_, fun hgt hnd hpos hus husl => ?_⟩
  · simp [subsample_stable_poses, Nat.not_lt.mpr hle]
  · by_cases hgt : poses.length > maxN
    · simp only [subsample_stable_poses, if_pos hgt] at hx
      exact weightedDraw_subset _ _ _ _ x hx
    · simpa [subsample_stable_poses, hgt] using hx
  · by_cases hgt : poses.length > maxN
    · simp only [subsample_stable_poses, if_pos hgt]
      exact le_trans (weightedDraw_length_le _ _ _ _) (le_max_left _ _)
    · simp [subsample_stable_poses, hgt]
  · simp only [subsample_stable_poses, if_pos hgt]
    exact weightedDraw_length_le _ _ _ _
  · have hwpos : ∀ w ∈ normalizeWeights (poses.map (fun s => s.p)), 0 < w := by
      intro w hw
      rcases List.mem_map.mp hw with ⟨q, hq, rfl⟩
      rcases List.mem_map.mp hq with ⟨s, hs, rfl⟩
      have hsum : 0 < (poses.map (fun s => s.p)).sum := by
        refine List.sum_pos _ ?_ ?_
        · intro x hx
          rcases List.mem_map.mp hx with ⟨s2, hs2, rfl⟩
          exact hpos s2 hs2
        · simp only [ne_eq, List.map_eq_nil_iff]
          intro h
          rw [h] at hgt
          simp at hgt
      exact div_pos (hpos s hs) hsum
    have hwlen : (normalizeWeights (poses.map (fun s => s.p))).length = poses.length := by
      simp [normalizeWeights]
    constructor
    · simp only [subsample_stable_poses, if_pos hgt]
      exact weightedDraw_length_eq maxN us poses _ (by rw [hwlen]) (le_of_lt hgt)
        hwpos hus husl
    · simp only [subsample_stable_poses, if_pos hgt]
      exact weightedDraw_nodup maxN us poses _ hnd

/-- A second concrete stable pose with a distinct id. -/
def cPoseB : StablePose ℚ := { id := "pose2", r := fun i j => if i = j then 1 else 0, p := 1 }

/-- A third concrete stable pose with a distinct id. -/
def cPoseC : StablePose ℚ := { id := "pose3", r := fun i j => if i = j then 1 else 0, p := 1 }

/-- Witness for C3: three distinct positive-probability poses, maximum 2 and a
valid uniform stream give exactly 2 distinct poses. -/
theorem subsample_stable_poses_spec_witness :
    (subsample_stable_poses 2 [0, 0] [cPose, cPoseB, cPoseC]).length = 2 ∧
    (subsample_stable_poses 2 [0, 0] [cPose, cPoseB, cPoseC]).Nodup :=
  (subsample_stable_poses_spec 2 [0, 0] [cPose, cPoseB, cPoseC]).2.2.2.2
    (by decide) (by decide) (by decide) (by decide) (by decide)

theorem pickIndex_of_all_zero (ws : List K) (t : K)
    (h0 : ∀ w ∈ ws, w = 0) (ht : 0 ≤ t) : pickIndex ws t = none := by
  induction ws generalizing t with
  | nil => rfl
  | cons w ws ih =>
    have hw : w = 0 := h0 w (List.mem_cons_self w ws)
    have : ¬ t < w := by rw [hw]; exact not_lt.mpr ht
    simp only [pickIndex, if_neg this]
    rw [ih (t - w) (fun v hv => h0 v (List.mem_cons_of_mem w hv)) (by rw [hw]; simpa using ht)]
    rfl

theorem weightedDraw_of_all_zero {α : Type} (n : Nat) (us : List K)
    (items : List α) (ws : List K) (h0 : ∀ w ∈ ws, w = 0) :
    weightedDraw n us items ws = [] := by
  cases n with
  | zero => rfl
  | succ n =>
    cases us with
    | nil => rfl
    | cons u us =>
      have hsum : ws.sum = 0 := List.sum_eq_zero h0
      have hpk : pickIndex ws (u * ws.sum) = none :=
        pickIndex_of_all_zero ws _ h0 (by rw [hsum, mul_zero])
      simp [weightedDraw, hpk]

/-- C10: the renormalization divides each probability by the total of the
listed probabilities; the renormalized weights sum to 1 exactly when that
total is nonzero.  For an input whose probabilities are all 0, with more
poses than the maximum, the code takes the weighted-draw branch with no
guard: the renormalized weights sum to 0 instead of 1 and the weighted draw
is ill-defined (in this model division by zero yields zero weights and the
draw selects nothing; numpy raises on such weights). -/
theorem renormalization_spec (ps : List K) (maxN : Nat) (us : List K)
    (poses : List (StablePose K)) :
    ((normalizeWeights ps).sum = 1 ↔ ps.sum ≠ 0) ∧
    (poses.length > maxN → (∀ s ∈ poses, s.p = 0) →
      subsample_stable_poses maxN us poses
          = weightedDraw maxN us poses (normalizeWeights (poses.map (fun s => s.p))) ∧
      (normalizeWeights (poses.map (fun s => s.p))).sum = 0 ∧
      subsample_stable_poses maxN us poses = []) := by
  constructor
  · rw [normalizeWeights, sum_map_div]
    constructor
    · intro h hz
      rw [hz] at h
      simp at h
    · intro h
      exact div_self h
  · intro hgt hz
    have hb : subsample_stable_poses maxN us poses
        = weightedDraw maxN us poses (normalizeWeights (poses.map (fun s => s.p))) := by
      simp [subsample_stable_poses, if_pos hgt]
    have hall : ∀ w ∈ normalizeWeights (poses.map (fun s => s.p)), w = 0 := by
      intro w hw
      rcases List.mem_map.mp hw with ⟨q, hq, rfl⟩
      rcases List.mem_map.mp hq with ⟨s, hs, rfl⟩
      rw [hz s hs, zero_div]
    refine ⟨hb, ?_, ?_⟩
    · exact List.sum_eq_zero hall
    · rw [hb]
      exact weightedDraw_of_all_zero _ _ _ _ hall

/-- A concrete stable pose with probability 0. -/
def cPoseZ : StablePose ℚ := { id := "z1", r := fun i j => if i = j then 1 else 0, p := 0 }

/-- Another concrete zero-probability stable pose. -/
def cPoseZ2 : StablePose ℚ := { id := "z2", r := fun i j => if i = j then 1 else 0, p := 0 }

/-- Witness for C10: two zero-probability poses with maximum 1 reach the
draw branch, the weights sum to 0 and the draw selects nothing. -/
theorem renormalization_spec_witness :
    (normalizeWeights ([cPoseZ, cPoseZ2].map (fun s => s.p))).sum = 0 ∧
    subsample_stable_poses 1 [(1 : ℚ) / 2] [cPoseZ, cPoseZ2] = [] :=
  ⟨((renormalization_spec ([cPoseZ, cPoseZ2].map (fun s => s.p)) 1 [(1 : ℚ) / 2]
      [cPoseZ, cPoseZ2]).2 (by decide) (by decide)).2.1,
   ((renormalization_spec ([cPoseZ, cPoseZ2].map (fun s => s.p)) 1 [(1 : ℚ) / 2]
      [cPoseZ, cPoseZ2]).2 (by decide) (by decide)).2.2⟩

/-- The dot product of two 3-vectors, as in stp_z.dot(...) at
src/dexnet/api.py line 590. -/
def dot3 (a b : Fin 3 → K) : K := a 0 * b 0 + a 1 * b 1 + a 2 * b 2

/-- Modelled from the spec: np.deg2rad converts degrees to radians by
multiplying with pi / 180; the value of pi is passed explicitly so that the
definition stays executable over ℚ and exact over ℝ. -/
def deg2rad (piv deg : K) : K := deg * (piv / 180)

/-- Operations of the external grasping module (dexnet.grasping, not under
src/) used by the metric loop: perpendicular_table realigns a parallel-jaw
grasp to the table plane of a stable pose, grasp_angles_from_stp_z returns
the grasp approach-table angle (the second component of the triple in the
source), x_axis gives the lateral axis T_obj_grasp.x_axis of a grasp, and
create_quality_fn embeds GraspQualityFunctionFactory.create_quality_function
for a fixed object, composed with the .quality field of its result. -/
structure GraspOps (K : Type) where
  perpendicular_table : Grasp → StablePose K → Grasp
  grasp_angles_from_stp_z : Grasp → StablePose K → K
  x_axis : Grasp → Fin 3 → K
  create_quality_fn : GQConfig K → Grasp → K

/-- Shallow embedding of the gravity-variant per-grasp evaluation block of
DexNet._compute_metrics (src/dexnet/api.py lines 577-598): realign the grasp
when the gripper is parallel-jaw, convert max_approach_table_angle from
degrees to radians, compute the approach-table angle and the dot product of
the table-contact normal with the lateral axis of the aligned grasp, and
invoke the quality function only when the feasibility predicate holds,
recording quality 0 otherwise.  The Boolean of the result instruments
whether the quality function was invoked. -/
def evalGravityPair (ops : GraspOps K) (piv : K) (quality_fn : Grasp → K)
    (gripper_type : String) (metric_config : GQConfig K)
    (grasp : Grasp) (stable_pose : StablePose K) : K × Bool :=
  let aligned_grasp := if gripper_type = "parallel_jaw"
    then ops.perpendicular_table grasp stable_pose else grasp
  let max_approach_table_angle := deg2rad piv metric_config.max_approach_table_angle
  let grasp_approach_table_angle := ops.grasp_angles_from_stp_z aligned_grasp stable_pose
  let stp_z := stable_pose.r 2
  let stp_z_ip := dot3 stp_z (ops.x_axis aligned_grasp)
  if |grasp_approach_table_angle| < max_approach_table_angle ∧ stp_z_ip < 0 then
    (quality_fn aligned_grasp, true)
  else
    (0, false)

/-- C2: when a grasp is evaluated against a gravity-dependent variant and a
stable pose, the grasp is realigned to the table plane exactly when the
gripper type is parallel_jaw; the pair is feasible exactly when the absolute
approach-table angle is below max_approach_table_angle converted from
degrees to radians and the dot product of the table-contact normal of the
pose with the lateral x axis of the (possibly realigned) grasp is negative;
an infeasible pair records quality 0 without invoking the quality function,
and a feasible pair records the quality-function value. -/
theorem feasibility_gate_spec (ops : GraspOps ℝ) (quality_fn : Grasp → ℝ)
    (gripper_type : String) (metric_config : GQConfig ℝ)
    (grasp : Grasp) (stable_pose : StablePose ℝ)
    (aligned_grasp : Grasp)
    (halign : aligned_grasp = if gripper_type = "parallel_jaw"
        then ops.perpendicular_table grasp stable_pose else grasp) :
    ((evalGravityPair ops Real.pi quality_fn gripper_type metric_config
        grasp stable_pose).2 = true ↔
      (|ops.grasp_angles_from_stp_z aligned_grasp stable_pose|
          < metric_config.max_approach_table_angle * (Real.pi / 180) ∧
        dot3 (stable_pose.r 2) (ops.x_axis aligned_grasp) < 0)) ∧
    (¬ (|ops.grasp_angles_from_stp_z aligned_grasp stable_pose|
          < metric_config.max_approach_table_angle * (Real.pi / 180) ∧
        dot3 (stable_pose.r 2) (ops.x_axis aligned_grasp) < 0) →
      evalGravityPair ops Real.pi quality_fn gripper_type metric_config
        grasp stable_pose = (0, false)) ∧
    ((|ops.grasp_angles_from_stp_z aligned_grasp stable_pose|
          < metric_config.max_approach_table_angle * (Real.pi / 180) ∧
        dot3 (stable_pose.r 2) (ops.x_axis aligned_grasp) < 0) →
      evalGravityPair ops Real.pi quality_fn gripper_type metric_config
        grasp stable_pose = (quality_fn aligned_grasp, true)) := by
  subst halign
  by_cases hfeas : (|ops.grasp_angles_from_stp_z
        (if gripper_type = "parallel_jaw"
          then ops.perpendicular_table grasp stable_pose else grasp) stable_pose|
      < metric_config.max_approach_table_angle * (Real.pi / 180) ∧
    dot3 (stable_pose.r 2) (ops.x_axis
        (if gripper_type = "parallel_jaw"
          then ops.perpendicular_table grasp stable_pose else grasp)) < 0)
  · refine ⟨by simp [evalGravityPair, deg2rad, hfeas], fun h => absurd hfeas h,
      fun _ => ?_⟩
    simp [evalGravityPair, deg2rad, hfeas]
  · refine ⟨by simp [evalGravityPair, deg2rad, hfeas], fun _ => ?_,
      fun h => absurd h hfeas⟩
    simp [evalGravityPair, deg2rad, hfeas]

/-- Concrete grasp used in witnesses. -/
def cGrasp : Grasp := { id := 7 }

/-- Concrete grasping-module operations over ℝ with approach-table angle
constantly 1 radian and zero lateral axis. -/
def cOps : GraspOps ℝ where
  perpendicular_table := fun g _ => g
  grasp_angles_from_stp_z := fun _ _ => 1
  x_axis := fun _ _ => 0
  create_quality_fn := fun _ _ => 0

/-- Concrete stable pose over ℝ with identity orientation. -/
def cPoseR : StablePose ℝ := { id := "p", r := fun i j => if i = j then 1 else 0, p := 1 }

/-- Concrete metric configuration over ℝ whose maximum approach-table angle
is 0 degrees, making every pair infeasible. -/
def cCfgR : GQConfig ℝ :=
  { quality_method := "wrench_resistance", max_approach_table_angle := 0 }

/-- Witness for C2: with a 1 radian approach angle against a 0 degree limit
the pair is infeasible, quality 0 is recorded and the quality function is
not invoked. -/
theorem feasibility_gate_spec_witness :
    evalGravityPair cOps Real.pi (fun _ => (5 : ℝ)) "suction" cCfgR cGrasp cPoseR
      = (0, false) :=
  (feasibility_gate_spec cOps (fun _ => (5 : ℝ)) "suction" cCfgR cGrasp cPoseR
      cGrasp (by simp)).2.1
    (by
      intro h
      have h1 := h.1
      simp only [cOps, cCfgR] at h1
      norm_num at h1)

/-- The gripper-parameter merge of src/dexnet/api.py lines 549-555: setattr
of force_limits and finger_radius from the gripper, and of inner_radius and
height only when the gripper has those attributes. -/
def mergeGripperParams (metric_config : GQConfig K) (gripper : Gripper K) :
    GQConfig K :=
  { metric_config with
      force_limits := some gripper.force_limit
      finger_radius := some gripper.finger_radius
      inner_radius := match gripper.inner_radius with
        | some v => some v
        | none => metric_config.inner_radius
      height := match gripper.height with
        | some v => some v
        | none => metric_config.height }

/-- The dataset collaborator, modelled as a read oracle for one
(object, gripper) pair: the stored grasps, the stable poses of the object,
the metric-existence query and the previously stored per-grasp metric
names. -/
structure DatasetOracle (K : Type) where
  grasps : List Grasp
  stable_poses : List (StablePose K)
  has_metric : String → Bool
  existing_metrics : Nat → List String

/-- Mutating calls issued to the dataset and database collaborators during
a metric pass, in program order. -/
inductive DBEvent (K : Type) where
  | deleteGraspMetrics (metric : String)
  | createMetric (metric : String)
  | storeGraspMetrics (record : List (Nat × String × K)) (force_overwrite : Bool)
  | flush
deriving DecidableEq

/-- Whether an event is a store_grasp_metrics call. -/
def isStoreEvent : DBEvent K → Bool
  | DBEvent.storeGraspMetrics _ _ => true
  | _ => false

/-- Shallow embedding of the per-grasp loop of DexNet._compute_metrics for
one metric variant (src/dexnet/api.py lines 560-612).  For a
gravity-dependent quality method the feasibility-gated evaluation runs for
every grasp; otherwise the grasp is skipped when its metric value already
exists and overwrite is disabled, and evaluated directly otherwise.  The
grasp_metrics dictionary writes are modelled as the ordered list of
(grasp id, metric name, value) triples; the second component instruments
the ids of the grasps on which the quality function was invoked.  Progress
logging (lines 562-564) has no effect on the record and is omitted. -/
def processGrasps (ops : GraspOps K) (piv : K)
    (existing_metrics : Nat → List String) (gripper_type : String)
    (quality_fn : Grasp → K) (metric_name : String)
    (metric_config : GQConfig K) (stable_pose : StablePose K)
    (overwrite : Bool) : List Grasp → List (Nat × String × K) × List Nat
  | [] => ([], [])
  | grasp :: rest =>
    let acc := processGrasps ops piv existing_metrics gripper_type quality_fn
      metric_name metric_config stable_pose overwrite rest
    if isGravityMethod metric_config.quality_method then
      let qi := evalGravityPair ops piv quality_fn gripper_type metric_config
        grasp stable_pose
      ((grasp.id, metric_name, qi.1) :: acc.1,
       if qi.2 then grasp.id :: acc.2 else acc.2)
    else
      if metric_name ∈ existing_metrics grasp.id ∧ overwrite = false then acc
      else ((grasp.id, metric_name, quality_fn grasp) :: acc.1, grasp.id :: acc.2)

/-- Shallow embedding of the per-variant loop of DexNet._compute_metrics
(src/dexnet/api.py lines 540-615): for each variant in order, register the
metric with the store when absent, merge the gripper parameters into the
configuration, build the quality function, pick the stable pose at the
running variant index ind, and process every grasp.  Returns the events,
the record writes and the instrumented invocation ids. -/
def processVariants (ops : GraspOps K) (piv : K) (ds : DatasetOracle K)
    (gripper : Gripper K) (overwrite : Bool)
    (stable_poses : List (StablePose K)) :
    List (String × GQConfig K) → Nat →
    List (DBEvent K) × List (Nat × String × K) × List Nat
  | [], _ => ([], [], [])
  | (metric_name, metric_config) :: rest, ind =>
    let create_events := if ds.has_metric metric_name then []
      else [DBEvent.createMetric metric_name]
    let merged := mergeGripperParams metric_config gripper
    let quality_fn := ops.create_quality_fn merged
    let stable_pose := stable_poses.getD ind default
    let this_variant := processGrasps ops piv ds.existing_metrics gripper.type
      quality_fn metric_name merged stable_pose overwrite ds.grasps
    let others := processVariants ops piv ds gripper overwrite stable_poses
      rest (ind + 1)
    (create_events ++ others.1, this_variant.1 ++ others.2.1,
     this_variant.2 ++ others.2.2)

/-- Shallow embedding of the metric loop of DexNet._compute_metrics
(src/dexnet/api.py lines 513-615): for each configured metric, optionally
delete the previously stored metrics, expand the metric into its variants
and process them with the variant index starting at 0. -/
def processMetrics (ops : GraspOps K) (piv : K) (ds : DatasetOracle K)
    (gripper : Gripper K) (obj : GraspableObject K)
    (delete_previous_metrics : Bool) (overwrite : Bool)
    (stable_poses : List (StablePose K)) :
    List (String × GQConfig K) →
    List (DBEvent K) × List (Nat × String × K) × List Nat
  | [] => ([], [], [])
  | (metric_name, metric_config) :: rest =>
    let delete_events := if delete_previous_metrics
      then [DBEvent.deleteGraspMetrics metric_name] else []
    let variants := expand_variants obj metric_name metric_config stable_poses
    let this_metric := processVariants ops piv ds gripper overwrite
      stable_poses variants 0
    let others := processMetrics ops piv ds gripper obj
      delete_previous_metrics overwrite stable_poses rest
    (delete_events ++ this_metric.1 ++ others.1,
     this_metric.2.1 ++ others.2.1, this_metric.2.2 ++ others.2.2)

/-- Configuration slice of _compute_metrics: max_stable_poses,
delete_previous_metrics and the metric dictionary (already filtered to the
requested metric name by the caller, and with create_config applied). -/
structure PassConfig (K : Type) where
  max_stable_poses : Nat
  delete_previous_metrics : Bool
  metrics : List (String × GQConfig K)

/-- Shallow embedding of DexNet._compute_metrics (src/dexnet/api.py lines
489-619) for one (object, gripper) pair on the path where no stable_pose_id
is given: load the stable poses, subsample them, process every configured
metric, and finally persist the accumulated record with
store_grasp_metrics(force_overwrite=True). -/
def compute_metrics_pass (ops : GraspOps K) (piv : K) (ds : DatasetOracle K)
    (gripper : Gripper K) (config : PassConfig K) (obj : GraspableObject K)
    (us : List K) (overwrite : Bool) :
    List (DBEvent K) × List (Nat × String × K) × List Nat :=
  let stable_poses := subsample_stable_poses config.max_stable_poses us
    ds.stable_poses
  let body := processMetrics ops piv ds gripper obj
    config.delete_previous_metrics overwrite stable_poses config.metrics
  (body.1 ++ [DBEvent.storeGraspMetrics body.2.1 true], body.2.1, body.2.2)

/-- The per-tuple body of the outer loop of DexNet.compute_metrics
(src/dexnet/api.py lines 696-698): the metric pass followed by the
database flush. -/
def compute_metrics_tuple_events (ops : GraspOps K) (piv : K)
    (ds : DatasetOracle K) (gripper : Gripper K) (config : PassConfig K)
    (obj : GraspableObject K) (us : List K) (overwrite : Bool) :
    List (DBEvent K) :=
  (compute_metrics_pass ops piv ds gripper config obj us overwrite).1
    ++ [DBEvent.flush]

theorem processVariants_events_shape (ops : GraspOps K) (piv : K)
    (ds : DatasetOracle K) (gripper : Gripper K) (overwrite : Bool)
    (stable_poses : List (StablePose K))
    (variants : List (String × GQConfig K)) (ind : Nat) :
    ∀ e ∈ (processVariants ops piv ds gripper overwrite stable_poses
        variants ind).1, ∃ m, e = DBEvent.createMetric m := by
  induction variants generalizing ind with
  | nil => simp [processVariants]
  | cons v rest ih =>
    obtain ⟨metric_name, metric_config⟩ := v
    intro e he
    simp only [processVariants, List.mem_append] at he
    rcases he with he | he
    · by_cases hc : ds.has_metric metric_name
      · simp [hc] at he
      · simp only [hc, if_neg, Bool.false_eq_true, if_false, List.mem_singleton] at he
        exact ⟨metric_name, he⟩
    · exact ih (ind + 1) e he

theorem processMetrics_events_shape (ops : GraspOps K) (piv : K)
    (ds : DatasetOracle K) (gripper : Gripper K) (obj : GraspableObject K)
    (delete_previous_metrics : Bool) (overwrite : Bool)
    (stable_poses : List (StablePose K))
    (metrics : List (String × GQConfig K)) :
    ∀ e ∈ (processMetrics ops piv ds gripper obj delete_previous_metrics
        overwrite stable_poses metrics).1,
      (∃ m, e = DBEvent.deleteGraspMetrics m) ∨ (∃ m, e = DBEvent.createMetric m) := by
  induction metrics with
  | nil => simp [processMetrics]
  | cons v rest ih =>
    obtain ⟨metric_name, metric_config⟩ := v
    intro e he
    simp only [processMetrics, List.mem_append] at he
    rcases he with (he | he) | he
    · cases hd : delete_previous_metrics with
      | false => simp [hd] at he
      | true =>
        rw [hd] at he
        simp only [if_pos, List.mem_singleton] at he
        exact Or.inl ⟨metric_name, he⟩
    · exact Or.inr (processVariants_events_shape ops piv ds gripper overwrite
        stable_poses _ 0 e he)
    · exact ih e he

theorem processMetrics_no_store (ops : GraspOps K) (piv : K)
    (ds : DatasetOracle K) (gripper : Gripper K) (obj : GraspableObject K)
    (delete_previous_metrics : Bool) (overwrite : Bool)
    (stable_poses : List (StablePose K))
    (metrics : List (String × GQConfig K)) :
    ∀ e ∈ (processMetrics ops piv ds gripper obj delete_previous_metrics
        overwrite stable_poses metrics).1,
      isStoreEvent e = false ∧ e ≠ DBEvent.flush := by
  intro e he
  rcases processMetrics_events_shape ops piv ds gripper obj
      delete_previous_metrics overwrite stable_poses metrics e he with
    ⟨m, rfl⟩ | ⟨m, rfl⟩ <;> exact ⟨rfl, fun h => DBEvent.noConfusion h⟩

/-- C6: for every completed metric pass over an (object, gripper) pair, the
accumulated record is persisted via store_grasp_metrics with
force_overwrite = true, regardless of the value of the caller overwrite
parameter: the store calls of the pass are exactly one call carrying the
accumulated record and the flag true. -/
theorem store_force_overwrite_spec (ops : GraspOps K) (piv : K)
    (ds : DatasetOracle K) (gripper : Gripper K) (config : PassConfig K)
    (obj : GraspableObject K) (us : List K) :
    ∀ overwrite : Bool,
      (compute_metrics_pass ops piv ds gripper config obj us overwrite).1.filter
          isStoreEvent
        = [DBEvent.storeGraspMetrics
            (compute_metrics_pass ops piv ds gripper config obj us overwrite).2.1
            true] := by
  intro overwrite
  have hno := processMetrics_no_store ops piv ds gripper obj
    config.delete_previous_metrics overwrite
    (subsample_stable_poses config.max_stable_poses us ds.stable_poses)
    config.metrics
  simp only [compute_metrics_pass, List.filter_append]
  rw [List.filter_eq_nil_iff.mpr (fun e he hs => by
    simp [(hno e he).1] at hs)]
  simp [isStoreEvent]

/-- C9: during a metric pass, store_grasp_metrics is called exactly once,
as the final event after all grasps of all variants have been processed
(every earlier event is a non-store, non-flush dataset call), and the
database flush of the outer loop body follows that single store. -/
theorem store_last_then_flush_spec (ops : GraspOps K) (piv : K)
    (ds : DatasetOracle K) (gripper : Gripper K) (config : PassConfig K)
    (obj : GraspableObject K) (us : List K) (overwrite : Bool) :
    ∃ pre,
      (compute_metrics_pass ops piv ds gripper config obj us overwrite).1
          = pre ++ [DBEvent.storeGraspMetrics
              (compute_metrics_pass ops piv ds gripper config obj us
                overwrite).2.1 true] ∧
      (∀ e ∈ pre, isStoreEvent e = false ∧ e ≠ DBEvent.flush) ∧
      compute_metrics_tuple_events ops piv ds gripper config obj us overwrite
          = pre ++ [DBEvent.storeGraspMetrics
              (compute_metrics_pass ops piv ds gripper config obj us
                overwrite).2.1 true, DBEvent.flush] := by
  refine ⟨(processMetrics ops piv ds gripper obj config.delete_previous_metrics
      overwrite (subsample_stable_poses config.max_stable_poses us
        ds.stable_poses) config.metrics).1, rfl, ?_, ?_⟩
  · exact processMetrics_no_store ops piv ds gripper obj
      config.delete_previous_metrics overwrite _ config.metrics
  · simp [compute_metrics_tuple_events, compute_metrics_pass]

theorem processGrasps_eq_filterMap (ops : GraspOps K) (piv : K)
    (existing_metrics : Nat → List String) (gripper_type : String)
    (quality_fn : Grasp → K) (metric_name : String)
    (metric_config : GQConfig K) (stable_pose : StablePose K)
    (overwrite : Bool) (grasps : List Grasp)
    (h : isGravityMethod metric_config.quality_method = false) :
    processGrasps ops piv existing_metrics gripper_type quality_fn
        metric_name metric_config stable_pose overwrite grasps
      = (grasps.filterMap (fun g =>
          if metric_name ∈ existing_metrics g.id ∧ overwrite = false then none
          else some (g.id, metric_name, quality_fn g)),
         grasps.filterMap (fun g =>
          if metric_name ∈ existing_metrics g.id ∧ overwrite = false then none
          else some g.id)) := by
  induction grasps with
  | nil => simp [processGrasps]
  | cons g gs ih =>
    by_cases hskip : metric_name ∈ existing_metrics g.id ∧ overwrite = false
    · obtain ⟨hmem, how⟩ := hskip
      subst how
      simp [processGrasps, h, hmem, ih, List.filterMap_cons]
    · simp [processGrasps, h, hskip, ih, List.filterMap_cons]

theorem processGrasps_gravity (ops : GraspOps K) (piv : K)
    (existing_metrics : Nat → List String) (gripper_type : String)
    (quality_fn : Grasp → K) (metric_name : String)
    (metric_config : GQConfig K) (stable_pose : StablePose K)
    (overwrite : Bool) (grasps : List Grasp)
    (h : isGravityMethod metric_config.quality_method = true) :
    (processGrasps ops piv existing_metrics gripper_type quality_fn
        metric_name metric_config stable_pose overwrite grasps).1
      = grasps.map (fun g => (g.id, metric_name,
          (evalGravityPair ops piv quality_fn gripper_type metric_config g
            stable_pose).1)) := by
  induction grasps with
  | nil => rfl
  | cons g gs ih => simp [processGrasps, h, ih]

/-- C7: for a variant with a non-gravity quality method, a grasp whose
metric name is already among its stored metrics is skipped when overwrite
is disabled — no value is recorded for its id and its quality function is
not invoked — while every other grasp has the quality-function value
recorded and the function invoked; for a gravity-dependent quality method a
value is recorded for every grasp, with no such skip check. -/
theorem skip_existing_spec (ops : GraspOps K) (piv : K)
    (existing_metrics : Nat → List String) (gripper_type : String)
    (quality_fn : Grasp → K) (metric_name : String)
    (metric_config : GQConfig K) (stable_pose : StablePose K)
    (overwrite : Bool) (grasps : List Grasp) :
    (isGravityMethod metric_config.quality_method = false →
      ∀ g ∈ grasps,
        ((metric_name ∈ existing_metrics g.id ∧ overwrite = false) →
          (∀ q, (g.id, metric_name, q) ∉ (processGrasps ops piv
              existing_metrics gripper_type quality_fn metric_name
              metric_config stable_pose overwrite grasps).1) ∧
          g.id ∉ (processGrasps ops piv existing_metrics gripper_type
              quality_fn metric_name metric_config stable_pose overwrite
              grasps).2) ∧
        (¬ (metric_name ∈ existing_metrics g.id ∧ overwrite = false) →
          (g.id, metric_name, quality_fn g) ∈ (processGrasps ops piv
              existing_metrics gripper_type quality_fn metric_name
              metric_config stable_pose overwrite grasps).1 ∧
          g.id ∈ (processGrasps ops piv existing_metrics gripper_type
              quality_fn metric_name metric_config stable_pose overwrite
              grasps).2)) ∧
    (isGravityMethod metric_config.quality_method = true →
      (processGrasps ops piv existing_metrics gripper_type quality_fn
          metric_name metric_config stable_pose overwrite grasps).1
        = grasps.map (fun g => (g.id, metric_name,
            (evalGravityPair ops piv quality_fn gripper_type metric_config g
              stable_pose).1))) := by
  constructor
  · intro h g hg
    rw [processGrasps_eq_filterMap ops piv existing_metrics gripper_type
      quality_fn metric_name metric_config stable_pose overwrite grasps h]
    constructor
    · intro hskip
      constructor
      · intro q hq
        rcases List.mem_filterMap.mp hq with ⟨g2, _, hsome⟩
        by_cases hs2 : metric_name ∈ existing_metrics g2.id ∧ overwrite = false
        · rw [if_pos hs2] at hsome
          exact Option.noConfusion hsome
        · rw [if_neg hs2] at hsome
          have hid : g2.id = g.id := congrArg Prod.fst (Option.some.inj hsome)
          exact hs2 (by rw [hid]; exact hskip)
      · intro hq
        rcases List.mem_filterMap.mp hq with ⟨g2, _, hsome⟩
        by_cases hs2 : metric_name ∈ existing_metrics g2.id ∧ overwrite = false
        · rw [if_pos hs2] at hsome
          exact Option.noConfusion hsome
        · rw [if_neg hs2] at hsome
          have hid : g2.id = g.id := Option.some.inj hsome
          exact hs2 (by rw [hid]; exact hskip)
    · intro hns
      exact ⟨List.mem_filterMap.mpr ⟨g, hg, by rw [if_neg hns]⟩,
        List.mem_filterMap.mpr ⟨g, hg, by rw [if_neg hns]⟩⟩
  · intro h
    exact processGrasps_gravity ops piv existing_metrics gripper_type
      quality_fn metric_name metric_config stable_pose overwrite grasps h

/-- Concrete grasping operations over ℚ for orchestration witnesses. -/
def cOpsQ : GraspOps ℚ where
  perpendicular_table := fun g _ => g
  grasp_angles_from_stp_z := fun _ _ => 0
  x_axis := fun _ _ => 0
  create_quality_fn := fun _ g => (g.id : ℚ)

/-- Concrete existing-metric oracle: grasp 1 already has metric m. -/
def cExisting : Nat → List String := fun i => if i = 1 then ["m"] else []

/-- Witness for C7: with overwrite disabled, grasp 1 (metric m already
stored) records nothing and is not invoked, while grasp 2 records its
quality value. -/
theorem skip_existing_spec_witness :
    (((1 : Nat), "m", (5 : ℚ)) ∉ (processGrasps cOpsQ 0 cExisting "t"
        (fun g => (g.id : ℚ)) "m" cCfgPlain cPose false
        [⟨1⟩, ⟨2⟩]).1) ∧
    ((1 : Nat) ∉ (processGrasps cOpsQ 0 cExisting "t"
        (fun g => (g.id : ℚ)) "m" cCfgPlain cPose false [⟨1⟩, ⟨2⟩]).2) ∧
    (((2 : Nat), "m", ((2 : Nat) : ℚ)) ∈ (processGrasps cOpsQ 0 cExisting "t"
        (fun g => (g.id : ℚ)) "m" cCfgPlain cPose false [⟨1⟩, ⟨2⟩]).1) :=
  ⟨(((skip_existing_spec cOpsQ 0 cExisting "t" (fun g => (g.id : ℚ)) "m"
        cCfgPlain cPose false [⟨1⟩, ⟨2⟩]).1 (by decide) ⟨1⟩
      (by decide)).1 (by decide)).1 5,
   (((skip_existing_spec cOpsQ 0 cExisting "t" (fun g => (g.id : ℚ)) "m"
        cCfgPlain cPose false [⟨1⟩, ⟨2⟩]).1 (by decide) ⟨1⟩
      (by decide)).1 (by decide)).2,
   (((skip_existing_spec cOpsQ 0 cExisting "t" (fun g => (g.id : ℚ)) "m"
        cCfgPlain cPose false [⟨1⟩, ⟨2⟩]).1 (by decide) ⟨2⟩
      (by decide)).2 (by decide)).1⟩

/-- Shallow embedding of the metric loop of DexNet.compute_metrics
(src/dexnet/api.py lines 686-700) for one (object, gripper) pair: for each
metric in order, the has_grasps precondition is checked first; on failure a
RuntimeWarning is raised — modelled by the Boolean flag — which aborts the
remaining iteration; on success the (object, gripper, metric) tuple is
processed and collected in order. -/
def run_metric_names (has_grasps : String → String → Bool)
    (obj_name gripper_name : String) :
    List String → List (String × String × String) × Bool
  | [] => ([], false)
  | metric :: rest =>
    if has_grasps obj_name gripper_name then
      let r := run_metric_names has_grasps obj_name gripper_name rest
      ((obj_name, gripper_name, metric) :: r.1, r.2)
    else ([], true)

/-- The gripper loop of DexNet.compute_metrics: a raised error from the
metric loop propagates and halts the remaining grippers. -/
def run_grippers (has_grasps : String → String → Bool) (obj_name : String)
    (metrics : List String) :
    List String → List (String × String × String) × Bool
  | [] => ([], false)
  | gripper_name :: rest =>
    let r := run_metric_names has_grasps obj_name gripper_name metrics
    if r.2 then (r.1, true)
    else
      let r2 := run_grippers has_grasps obj_name metrics rest
      (r.1 ++ r2.1, r2.2)

/-- The object loop of DexNet.compute_metrics (src/dexnet/api.py lines
683-700): objects outermost, then grippers, then metrics; a raised
missing-grasps error propagates out of all three loops, halting the whole
iteration. -/
def compute_metrics_outer (has_grasps : String → String → Bool)
    (grippers metrics : List String) :
    List String → List (String × String × String) × Bool
  | [] => ([], false)
  | obj_name :: rest =>
    let r := run_grippers has_grasps obj_name metrics grippers
    if r.2 then (r.1, true)
    else
      let r2 := compute_metrics_outer has_grasps grippers metrics rest
      (r.1 ++ r2.1, r2.2)

/-- The (object, gripper, metric) tuples in iteration order. -/
def tuple_order (objects grippers metrics : List String) :
    List (String × String × String) :=
  objects.flatMap (fun o =>
    grippers.flatMap (fun g => metrics.map (fun m => (o, g, m))))

/-- Linear model of the triple loop: process tuples in order, halting at
the first tuple whose (object, gripper) pair has no grasps. -/
def run_tuples (has_grasps : String → String → Bool) :
    List (String × String × String) → List (String × String × String) × Bool
  | [] => ([], false)
  | t :: ts =>
    if has_grasps t.1 t.2.1 then
      let r := run_tuples has_grasps ts
      (t :: r.1, r.2)
    else ([], true)

theorem run_tuples_append (has_grasps : String → String → Bool)
    (xs ys : List (String × String × String)) :
    run_tuples has_grasps (xs ++ ys) =
      if (run_tuples has_grasps xs).2 then run_tuples has_grasps xs
      else ((run_tuples has_grasps xs).1 ++ (run_tuples has_grasps ys).1,
        (run_tuples has_grasps ys).2) := by
  induction xs with
  | nil => simp [run_tuples]
  | cons t ts ih =>
    by_cases ht : has_grasps t.1 t.2.1
    · by_cases h2 : (run_tuples has_grasps ts).2 <;>
        simp [run_tuples, ht, ih, h2]
    · simp [run_tuples, ht]

theorem run_metric_names_eq (has_grasps : String → String → Bool)
    (obj_name gripper_name : String) (metrics : List String) :
    run_metric_names has_grasps obj_name gripper_name metrics
      = run_tuples has_grasps
          (metrics.map (fun m => (obj_name, gripper_name, m))) := by
  induction metrics with
  | nil => rfl
  | cons m ms ih =>
    by_cases hh : has_grasps obj_name gripper_name <;>
      simp [run_metric_names, run_tuples, hh, ih]

theorem run_grippers_eq (has_grasps : String → String → Bool)
    (obj_name : String) (metrics grippers : List String) :
    run_grippers has_grasps obj_name metrics grippers
      = run_tuples has_grasps
          (grippers.flatMap (fun g =>
            metrics.map (fun m => (obj_name, g, m)))) := by
  induction grippers with
  | nil => rfl
  | cons g gs ih =>
    simp only [run_grippers, run_metric_names_eq, List.flatMap_cons,
      run_tuples_append, ih]
    by_cases h2 : (run_tuples has_grasps
        (metrics.map (fun m => (obj_name, g, m)))).2
    · simp [h2, Prod.ext_iff]
    · simp [h2]

theorem compute_metrics_outer_eq (has_grasps : String → String → Bool)
    (grippers metrics objects : List String) :
    compute_metrics_outer has_grasps grippers metrics objects
      = run_tuples has_grasps (tuple_order objects grippers metrics) := by
  induction objects with
  | nil => rfl
  | cons o os ih =>
    simp only [compute_metrics_outer, run_grippers_eq, tuple_order,
      List.flatMap_cons, run_tuples_append, ih]
    by_cases h2 : (run_tuples has_grasps
        (grippers.flatMap (fun g => metrics.map (fun m => (o, g, m))))).2
    · simp [h2, tuple_order, Prod.ext_iff]
    · simp [h2, tuple_order]

theorem run_tuples_eq_takeWhile (has_grasps : String → String → Bool)
    (ts : List (String × String × String)) :
    run_tuples has_grasps ts
      = (ts.takeWhile (fun t => has_grasps t.1 t.2.1),
        ts.any (fun t => ! has_grasps t.1 t.2.1)) := by
  induction ts with
  | nil => rfl
  | cons t ts ih =>
    by_cases ht : has_grasps t.1 t.2.1 <;>
      simp [run_tuples, ht, ih, List.takeWhile_cons]

/-- C8: if some (object, gripper, metric) tuple reached during
compute_metrics has no grasps for its (object, gripper) pair, the
missing-grasps condition is raised as an error whose propagation halts the
entire outer iteration: the processed tuples are exactly those strictly
before the first failing tuple, so no subsequent tuple is processed. -/
theorem missing_grasps_halts_spec (has_grasps : String → String → Bool)
    (objects grippers metrics : List String)
    (hfail : ∃ t ∈ tuple_order objects grippers metrics,
      has_grasps t.1 t.2.1 = false) :
    (compute_metrics_outer has_grasps grippers metrics objects).2 = true ∧
    (compute_metrics_outer has_grasps grippers metrics objects).1
      = (tuple_order objects grippers metrics).takeWhile
          (fun t => has_grasps t.1 t.2.1) := by
  rw [compute_metrics_outer_eq, run_tuples_eq_takeWhile]
  refine ⟨?_, rfl⟩
  rcases hfail with ⟨t, ht, hf⟩
  exact List.any_eq_true.mpr ⟨t, ht, by simp [hf]⟩

/-- Witness for C8: with grasps existing only for object a, the iteration
over objects a and b halts at the first tuple of b, having processed
exactly the tuple of a. -/
theorem missing_grasps_halts_spec_witness :
    (compute_metrics_outer (fun o _ => o == "a") ["g"] ["m"] ["a", "b"]).2
        = true ∧
    (compute_metrics_outer (fun o _ => o == "a") ["g"] ["m"] ["a", "b"]).1
      = (tuple_order ["a", "b"] ["g"] ["m"]).takeWhile
          (fun t => (fun o _ => o == "a") t.1 t.2.1) :=
  missing_grasps_halts_spec (fun o _ => o == "a") ["a", "b"] ["g"] ["m"]
    (by decide)

end DexNetSpec
